import Mathlib

/-!
Shallow embedding of the resilience, rate-limiting and alerting components of
the vLLM inference service (`app/resilience.py`, `app/auth.py`,
`app/alerting.py`, and the reset endpoint of `app/main.py`).

Timestamps (Python `time.time()`) are modelled as rationals; Python `float`
token balances are likewise modelled as rationals, so the arithmetic
(`min`, `+`, `-`, comparisons) is exact.  Each operation that reads the clock
takes the current time as an explicit argument.  Python mutable objects become
explicit state passing; `dict` becomes an association list preserving
insertion/update semantics; raised exceptions become `Except` / sum results.
-/

/-- Generic association-list update mirroring Python `d[k] = v`: an existing
key is overwritten in place, a new key is appended at the end. -/
def setKey {β : Type} (k : String) (v : β) : List (String × β) → List (String × β)
  | [] => [(k, v)]
  | (k', v') :: rest => if k' == k then (k, v) :: rest else (k', v') :: setKey k v rest

/-! ## Circuit breaker (`app/resilience.py`, class `CircuitBreaker`) -/

/-- `CircuitState` enum: CLOSED / OPEN / HALF_OPEN. -/
inductive CircuitState
  | closed
  | opened
  | halfOpen
deriving DecidableEq

/-- `CircuitBreakerConfig` dataclass (the per-call `timeout` field only feeds
`asyncio.wait_for`; a timed-out call is a failed call, covered by the
`opSucceeds` flag of `CircuitBreaker.call`). -/
structure CircuitBreakerConfig where
  failure_threshold : Nat := 5
  recovery_timeout : ℚ := 60
  success_threshold : Nat := 3
deriving DecidableEq

/-- Mutable state of a `CircuitBreaker` instance. -/
structure CircuitBreaker where
  state : CircuitState
  failure_count : Nat
  success_count : Nat
  last_failure_time : ℚ
  request_count : Nat
deriving DecidableEq

/-- `CircuitBreaker.__init__`: Closed with all counters zero. -/
def CircuitBreaker.init : CircuitBreaker :=
  { state := CircuitState.closed, failure_count := 0, success_count := 0,
    last_failure_time := 0, request_count := 0 }

/-- `CircuitBreaker._handle_success`.  In the source `failure_count` is a
Python int kept ≥ 0 by `max(0, ...)`; here it is a `Nat`, whose truncated
subtraction `n - 1` equals `max(0, n - 1)`. -/
def CircuitBreaker.handle_success (cfg : CircuitBreakerConfig) (cb : CircuitBreaker) :
    CircuitBreaker :=
  match cb.state with
  | CircuitState.halfOpen =>
      let sc := cb.success_count + 1
      if sc ≥ cfg.success_threshold then
        { cb with state := CircuitState.closed, success_count := sc, failure_count := 0 }
      else
        { cb with success_count := sc }
  | CircuitState.closed =>
      { cb with failure_count := cb.failure_count - 1 }
  | CircuitState.opened => cb

/-- `CircuitBreaker._handle_failure`: increment `failure_count` and stamp
`last_failure_time` unconditionally, then branch on the state. -/
def CircuitBreaker.handle_failure (cfg : CircuitBreakerConfig) (now : ℚ)
    (cb : CircuitBreaker) : CircuitBreaker :=
  let cb1 := { cb with failure_count := cb.failure_count + 1, last_failure_time := now }
  match cb.state with
  | CircuitState.closed =>
      if cb1.failure_count ≥ cfg.failure_threshold then
        { cb1 with state := CircuitState.opened }
      else cb1
  | CircuitState.halfOpen => { cb1 with state := CircuitState.opened }
  | CircuitState.opened => cb1

/-- Lines 44–53 of `CircuitBreaker.call`: the admission check under the lock.
`none` means the call is rejected with `CircuitBreakerError`; `some cb'` means
the call is admitted with breaker state `cb'`. -/
def CircuitBreaker.admission (cfg : CircuitBreakerConfig) (now : ℚ) (cb : CircuitBreaker) :
    Option CircuitBreaker :=
  if cb.state = CircuitState.opened then
    if now - cb.last_failure_time ≥ cfg.recovery_timeout then
      some { cb with state := CircuitState.halfOpen, success_count := 0 }
    else
      none
  else
    some cb

/-- Outcome of one `CircuitBreaker.call`: rejected by the breaker, or the
wrapped operation was invoked and succeeded / failed (a timeout is a
failure). -/
inductive CallOutcome
  | rejected
  | succeeded
  | failed
deriving DecidableEq

/-- `CircuitBreaker.call`: admission check at time `nowCheck`; if admitted,
`request_count` is incremented, the wrapped operation runs (its result is the
`opSucceeds` flag) and the matching handler runs at time `nowHandler`. -/
def CircuitBreaker.call (cfg : CircuitBreakerConfig) (nowCheck nowHandler : ℚ)
    (opSucceeds : Bool) (cb : CircuitBreaker) : CallOutcome × CircuitBreaker :=
  match CircuitBreaker.admission cfg nowCheck cb with
  | none => (CallOutcome.rejected, cb)
  | some cb1 =>
      let cb2 := { cb1 with request_count := cb1.request_count + 1 }
      if opSucceeds then
        (CallOutcome.succeeded, CircuitBreaker.handle_success cfg cb2)
      else
        (CallOutcome.failed, CircuitBreaker.handle_failure cfg nowHandler cb2)

/-! ## Request queue (`app/resilience.py`, class `RequestQueue`) -/

/-- `RequestQueue` state.  The underlying `asyncio.Queue` is FIFO; entries are
the `(priority, timestamp, item)` triples built by `put`.  The worker-side
`processing` / `processed` counters and the worker list play no role in the
enqueue/dequeue contract and are omitted. -/
structure RequestQueue (α : Type) where
  max_size : Nat
  queue : List (Int × ℚ × α)
  dropped : Nat
deriving DecidableEq

/-- `RequestQueue.__init__` with the given capacity. -/
def RequestQueue.init (α : Type) (max_size : Nat) : RequestQueue α :=
  { max_size := max_size, queue := [], dropped := 0 }

/-- `RequestQueue.put`: if the current size is at/above capacity, bump
`dropped` and raise `QueueFullError` (`Except.error`); otherwise enqueue the
`(priority, timestamp, item)` triple at the tail. -/
def RequestQueue.put {α : Type} (q : RequestQueue α) (item : α) (priority : Int)
    (now : ℚ) : Except Unit Unit × RequestQueue α :=
  if q.queue.length ≥ q.max_size then
    (Except.error (), { q with dropped := q.dropped + 1 })
  else
    (Except.ok (), { q with queue := q.queue ++ [(priority, now, item)] })

/-- `RequestQueue.get`: dequeue the head triple and return its item
(`none` models the empty queue, where `asyncio.Queue.get` would block). -/
def RequestQueue.get {α : Type} (q : RequestQueue α) : Option (α × RequestQueue α) :=
  match q.queue with
  | [] => none
  | (_, _, item) :: rest => some (item, { q with queue := rest })

/-- Sequence of `put` calls, collecting each call's result. -/
def RequestQueue.putAll {α : Type} (q : RequestQueue α) :
    List (Int × ℚ × α) → List (Except Unit Unit) × RequestQueue α
  | [] => ([], q)
  | (priority, now, item) :: rest =>
      let r := RequestQueue.put q item priority now
      let rs := RequestQueue.putAll r.2 rest
      (r.1 :: rs.1, rs.2)

/-- Repeated `get` until the queue is empty, collecting the items in dequeue
order. -/
def RequestQueue.drain {α : Type} (q : RequestQueue α) : List α :=
  match hq : RequestQueue.get q with
  | none => []
  | some r => r.1 :: RequestQueue.drain r.2
termination_by q.queue.length
decreasing_by
  simp only [RequestQueue.get] at hq
  cases h : q.queue with
  | nil => rw [h] at hq; simp at hq
  | cons hd tl =>
      rw [h] at hq
      obtain ⟨_, _, _⟩ := hd
      simp only [Option.some.injEq] at hq
      subst hq
      simp [h]

/-! ## Rate limiter (`app/auth.py`, class `RateLimiter`) -/

/-- One token bucket (`self.buckets[key]` dict entry). -/
structure Bucket where
  tokens : ℚ
  last_refill : ℚ
  requests : Nat
  last_request : ℚ
deriving DecidableEq

/-- `RateLimiter` state. -/
structure RateLimiter where
  requests_per_minute : Nat
  burst_size : ℚ
  rate_per_second : ℚ
  buckets : List (String × Bucket)
  cleanup_interval : ℚ
  last_cleanup : ℚ
deriving DecidableEq

/-- `RateLimiter.__init__` at time `now`.  Python evaluates
`burst_size or min(requests_per_minute, 100)`, so both `None` and `0` fall
back to the minimum. -/
def RateLimiter.init (requests_per_minute : Nat) (burst? : Option ℚ) (now : ℚ) :
    RateLimiter :=
  { requests_per_minute := requests_per_minute,
    burst_size :=
      match burst? with
      | none => min (requests_per_minute : ℚ) 100
      | some b => if b = 0 then min (requests_per_minute : ℚ) 100 else b,
    rate_per_second := (requests_per_minute : ℚ) / 60,
    buckets := [],
    cleanup_interval := 300,
    last_cleanup := now }

/-- `RateLimiter._cleanup_old_buckets`: drop buckets idle for more than one
hour. -/
def RateLimiter.cleanup_old_buckets (now : ℚ) (rl : RateLimiter) : RateLimiter :=
  { rl with buckets := rl.buckets.filter (fun kb => !(decide (now - kb.2.last_request > 3600))) }

/-- `RateLimiter._get_bucket`: periodic cleanup, then locate-or-create the
key's bucket.  Returns the located/created bucket together with the updated
limiter. -/
def RateLimiter.get_bucket (now : ℚ) (key : String) (rl : RateLimiter) :
    Bucket × RateLimiter :=
  let rl1 :=
    if now - rl.last_cleanup > rl.cleanup_interval then
      { RateLimiter.cleanup_old_buckets now rl with last_cleanup := now }
    else rl
  match rl1.buckets.lookup key with
  | some b => (b, rl1)
  | none =>
      let b : Bucket :=
        { tokens := rl1.burst_size, last_refill := now, requests := 0, last_request := now }
      (b, { rl1 with buckets := setKey key b rl1.buckets })

/-- `RateLimiter._refill_bucket`: add `elapsed * rate_per_second` tokens,
capped at `burst_size`, and stamp `last_refill`. -/
def RateLimiter.refill_bucket (burst_size rate_per_second now : ℚ) (b : Bucket) : Bucket :=
  { b with
    tokens := min burst_size (b.tokens + (now - b.last_refill) * rate_per_second),
    last_refill := now }

/-- `RateLimiter.is_allowed`: locate-or-create the bucket, refill it, stamp
`last_request`, count the request, then consume one token iff at least one is
available.  The bucket object is mutated in place in Python, so the final map
stores the updated bucket under `key`. -/
def RateLimiter.is_allowed (now : ℚ) (key : String) (rl : RateLimiter) :
    Bool × RateLimiter :=
  let p := RateLimiter.get_bucket now key rl
  let b1 := RateLimiter.refill_bucket rl.burst_size rl.rate_per_second now p.1
  let b2 := { b1 with last_request := now, requests := b1.requests + 1 }
  if b2.tokens ≥ 1 then
    (true, { p.2 with buckets := setKey key { b2 with tokens := b2.tokens - 1 } p.2.buckets })
  else
    (false, { p.2 with buckets := setKey key b2 p.2.buckets })

/-- Snapshot returned by `RateLimiter.get_stats` (the default branch for an
unknown key has no `last_request` field, hence the `Option`). -/
structure RateLimitStats where
  tokens : ℚ
  requests : Nat
  rate_limit : Nat
  burst_size : ℚ
  last_request : Option ℚ
deriving DecidableEq

/-- `RateLimiter.get_stats`: an unknown key gets a default snapshot and the
limiter is untouched; a known key's bucket is refilled in place (a real
mutation in the source) and its fields are reported. -/
def RateLimiter.get_stats (now : ℚ) (key : String) (rl : RateLimiter) :
    RateLimitStats × RateLimiter :=
  match rl.buckets.lookup key with
  | none =>
      ({ tokens := rl.burst_size, requests := 0, rate_limit := rl.requests_per_minute,
         burst_size := rl.burst_size, last_request := none }, rl)
  | some b =>
      let b1 := RateLimiter.refill_bucket rl.burst_size rl.rate_per_second now b
      ({ tokens := b1.tokens, requests := b1.requests, rate_limit := rl.requests_per_minute,
         burst_size := rl.burst_size, last_request := some b1.last_request },
       { rl with buckets := setKey key b1 rl.buckets })

/-! ## Alerting (`app/alerting.py`, class `AlertRule`) -/

/-- `AlertSeverity` enum. -/
inductive AlertSeverity
  | info
  | warning
  | critical
deriving DecidableEq

/-- An `Alert` record as built by `AlertRule.check` (the rendered `message`
string, a Python format-string instantiation, is not modelled). -/
structure Alert where
  name : String
  severity : AlertSeverity
  timestamp : ℚ
  labels : List (String × String)
  value : ℚ
  threshold : ℚ
deriving DecidableEq

/-- An `AlertRule` with its mutable `last_fired` timestamp.  The numeric
condition is an arbitrary predicate on the metric value, as in the source. -/
structure AlertRule where
  name : String
  condition : ℚ → Bool
  severity : AlertSeverity
  threshold : ℚ
  cooldown_seconds : ℚ
  last_fired : ℚ

/-- `AlertRule.check` at time `now`: no alert when the condition is false or
the cooldown has not elapsed; otherwise stamp `last_fired := now` and emit the
alert. -/
def AlertRule.check (now : ℚ) (value : ℚ) (labels : List (String × String))
    (r : AlertRule) : Option Alert × AlertRule :=
  if !(r.condition value) then
    (none, r)
  else if now - r.last_fired < r.cooldown_seconds then
    (none, r)
  else
    (some { name := r.name, severity := r.severity, timestamp := now, labels := labels,
            value := value, threshold := r.threshold },
     { r with last_fired := now })

/-! ## Circuit-breaker reset endpoint (`app/main.py`, `reset_circuit_breaker`) -/

/-- The breaker registry of the `ResilienceManager` singleton. -/
structure ResilienceManager where
  circuit_breakers : List (String × CircuitBreaker)
deriving DecidableEq

/-- `POST /resilience/circuit-breaker/{name}/reset`: a registered breaker is
forced to Closed with `failure_count` and `success_count` zeroed
(`request_count` and `last_failure_time` are left as they are); an unknown
name yields the error payload and touches nothing. -/
def reset_circuit_breaker (name : String) (mgr : ResilienceManager) :
    Except String String × ResilienceManager :=
  match mgr.circuit_breakers.lookup name with
  | some cb =>
      let cb' := { cb with state := CircuitState.closed, failure_count := 0,
                           success_count := 0 }
      (Except.ok ("Circuit breaker " ++ name ++ " reset successfully"),
       { mgr with circuit_breakers := setKey name cb' mgr.circuit_breakers })
  | none =>
      (Except.error ("Circuit breaker " ++ name ++ " not found"), mgr)

/-! ## Theorems -/

/-- C1: CircuitBreaker counter bookkeeping follows the specified state
machine: while Closed, each recorded failure increments `failure_count`
(stamping `last_failure_time`) and the state becomes Open exactly when the
count reaches `failure_threshold`; a success while Closed decays
`failure_count` to `max(0, failure_count - 1)`; while HalfOpen, any single
failure transitions back to Open, and each success increments
`success_count`, transitioning to Closed with `failure_count` reset to 0
exactly when it reaches `success_threshold`. -/
theorem circuitBreaker_counter_bookkeeping (cfg : CircuitBreakerConfig) (now : ℚ)
    (cb : CircuitBreaker) :
    (cb.state = CircuitState.closed →
      (CircuitBreaker.handle_failure cfg now cb).failure_count = cb.failure_count + 1 ∧
      (CircuitBreaker.handle_failure cfg now cb).last_failure_time = now ∧
      ((CircuitBreaker.handle_failure cfg now cb).state = CircuitState.opened ↔
        cb.failure_count + 1 ≥ cfg.failure_threshold)) ∧
    (cb.state = CircuitState.closed →
      (CircuitBreaker.handle_success cfg cb).state = CircuitState.closed ∧
      ((CircuitBreaker.handle_success cfg cb).failure_count : ℤ) =
        max 0 ((cb.failure_count : ℤ) - 1)) ∧
    (cb.state = CircuitState.halfOpen →
      (CircuitBreaker.handle_failure cfg now cb).state = CircuitState.opened) ∧
    (cb.state = CircuitState.halfOpen →
      (CircuitBreaker.handle_success cfg cb).success_count = cb.success_count + 1 ∧
      ((CircuitBreaker.handle_success cfg cb).state = CircuitState.closed ↔
        cb.success_count + 1 ≥ cfg.success_threshold) ∧
      (cb.success_count + 1 ≥ cfg.success_threshold →
        (CircuitBreaker.handle_success cfg cb).failure_count = 0)) := by
  obtain ⟨st, fc, sc, lft, rc⟩ := cb
  refine ⟨?_, ?_, ?_, ?_⟩ <;> intro h <;>
    simp only [CircuitBreaker.handle_failure, CircuitBreaker.handle_success] at * <;>
    subst h
  · by_cases hthr : fc + 1 ≥ cfg.failure_threshold <;> simp [hthr]
  · constructor
    · simp
    · simp only []
      omega
  · simp
  · by_cases hthr : sc + 1 ≥ cfg.success_threshold <;> simp [hthr]

/-- Witness for C1 at a concrete Closed breaker two failures short of the
threshold. -/
theorem circuitBreaker_counter_bookkeeping_witness :
    (CircuitBreaker.handle_failure ⟨3, 60, 2⟩ 7
        ⟨CircuitState.closed, 2, 0, 0, 0⟩).state = CircuitState.opened ↔ 2 + 1 ≥ 3 :=
  ((circuitBreaker_counter_bookkeeping ⟨3, 60, 2⟩ 7
      ⟨CircuitState.closed, 2, 0, 0, 0⟩).1 rfl).2.2

/-- C2: for an Open breaker, a call before the recovery timeout has elapsed is
rejected without running the wrapped operation and leaves the breaker
untouched; once `nowCheck - last_failure_time ≥ recovery_timeout`, the
admission step moves the breaker to HalfOpen with `success_count = 0` and the
wrapped operation actually runs (the outcome reflects it). -/
theorem openBreaker_recovery_gate (cfg : CircuitBreakerConfig) (nowCheck nowHandler : ℚ)
    (opSucceeds : Bool) (cb : CircuitBreaker) (hopen : cb.state = CircuitState.opened) :
    (nowCheck - cb.last_failure_time < cfg.recovery_timeout →
      CircuitBreaker.call cfg nowCheck nowHandler opSucceeds cb =
        (CallOutcome.rejected, cb)) ∧
    (nowCheck - cb.last_failure_time ≥ cfg.recovery_timeout →
      CircuitBreaker.admission cfg nowCheck cb =
        some { cb with state := CircuitState.halfOpen, success_count := 0 } ∧
      (CircuitBreaker.call cfg nowCheck nowHandler opSucceeds cb).1 =
        (if opSucceeds then CallOutcome.succeeded else CallOutcome.failed)) := by
  constructor
  · intro hlt
    have hadm : CircuitBreaker.admission cfg nowCheck cb = none := by
      simp [CircuitBreaker.admission, hopen, not_le.mpr hlt]
    simp [CircuitBreaker.call, hadm]
  · intro hge
    have hadm : CircuitBreaker.admission cfg nowCheck cb =
        some { cb with state := CircuitState.halfOpen, success_count := 0 } := by
      simp [CircuitBreaker.admission, hopen, hge]
    refine ⟨hadm, ?_⟩
    cases opSucceeds <;> simp [CircuitBreaker.call, hadm]

/-- Witness for C2: breaker opened at time 0 with `recovery_timeout = 5`; a
call at time 2 is rejected unchanged, a call at time 6 is attempted. -/
theorem openBreaker_recovery_gate_witness :
    CircuitBreaker.call ⟨3, 5, 3⟩ 2 2 true ⟨CircuitState.opened, 3, 0, 0, 3⟩ =
      (CallOutcome.rejected, ⟨CircuitState.opened, 3, 0, 0, 3⟩) ∧
    (CircuitBreaker.call ⟨3, 5, 3⟩ 6 6 true ⟨CircuitState.opened, 3, 0, 0, 3⟩).1 =
      CallOutcome.succeeded := by
  constructor
  · exact (openBreaker_recovery_gate ⟨3, 5, 3⟩ 2 2 true
      ⟨CircuitState.opened, 3, 0, 0, 3⟩ rfl).1 (by norm_num)
  · have h := ((openBreaker_recovery_gate ⟨3, 5, 3⟩ 6 6 true
      ⟨CircuitState.opened, 3, 0, 0, 3⟩ rfl).2 (by norm_num)).2
    simpa using h

/-- C9: a call rejected by an Open breaker (recovery timeout not elapsed)
leaves the breaker state completely unchanged — in particular
`request_count` is not incremented for a rejected attempt. -/
theorem rejectedCall_leaves_breaker_unchanged (cfg : CircuitBreakerConfig)
    (nowCheck nowHandler : ℚ) (opSucceeds : Bool) (cb : CircuitBreaker)
    (hopen : cb.state = CircuitState.opened)
    (hwait : nowCheck - cb.last_failure_time < cfg.recovery_timeout) :
    CircuitBreaker.call cfg nowCheck nowHandler opSucceeds cb =
      (CallOutcome.rejected, cb) ∧
    (CircuitBreaker.call cfg nowCheck nowHandler opSucceeds cb).2.request_count =
      cb.request_count := by
  have hadm : CircuitBreaker.admission cfg nowCheck cb = none := by
    simp [CircuitBreaker.admission, hopen, not_le.mpr hwait]
  simp [CircuitBreaker.call, hadm]

/-- Witness for C9: rejected call at time 3 on a breaker opened at time 0 with
`recovery_timeout = 60` and `request_count = 7`. -/
theorem rejectedCall_leaves_breaker_unchanged_witness :
    CircuitBreaker.call ⟨5, 60, 3⟩ 3 3 false ⟨CircuitState.opened, 5, 1, 0, 7⟩ =
      (CallOutcome.rejected, ⟨CircuitState.opened, 5, 1, 0, 7⟩) ∧
    (CircuitBreaker.call ⟨5, 60, 3⟩ 3 3 false
        ⟨CircuitState.opened, 5, 1, 0, 7⟩).2.request_count = 7 :=
  rejectedCall_leaves_breaker_unchanged ⟨5, 60, 3⟩ 3 3 false
    ⟨CircuitState.opened, 5, 1, 0, 7⟩ rfl (by norm_num)

/-- C5: `put` fails immediately with `QueueFullError` and bumps `dropped`
when the queue is at/above capacity and enqueues otherwise; on a capacity-5
queue with no draining, of 6 `put` calls exactly the first 5 succeed, the 6th
raises, and `dropped = 1`. -/
theorem queue_put_sheds_load :
    (∀ (q : RequestQueue Nat) (item : Nat) (priority : Int) (now : ℚ),
      (q.max_size ≤ q.queue.length →
        (RequestQueue.put q item priority now).1 = Except.error () ∧
        (RequestQueue.put q item priority now).2.dropped = q.dropped + 1 ∧
        (RequestQueue.put q item priority now).2.queue = q.queue) ∧
      (q.queue.length < q.max_size →
        (RequestQueue.put q item priority now).1 = Except.ok () ∧
        (RequestQueue.put q item priority now).2.queue =
          q.queue ++ [(priority, now, item)] ∧
        (RequestQueue.put q item priority now).2.dropped = q.dropped)) ∧
    ((RequestQueue.putAll (RequestQueue.init Nat 5)
        [(0, 0, 1), (0, 0, 2), (0, 0, 3), (0, 0, 4), (0, 0, 5), (0, 0, 6)]).1 =
      [Except.ok (), Except.ok (), Except.ok (), Except.ok (), Except.ok (),
       Except.error ()] ∧
     (RequestQueue.putAll (RequestQueue.init Nat 5)
        [(0, 0, 1), (0, 0, 2), (0, 0, 3), (0, 0, 4), (0, 0, 5), (0, 0, 6)]).2.dropped = 1 ∧
     (RequestQueue.putAll (RequestQueue.init Nat 5)
        [(0, 0, 1), (0, 0, 2), (0, 0, 3), (0, 0, 4), (0, 0, 5), (0, 0, 6)]).2.queue.length
       = 5) := by
  constructor
  · intro q item priority now
    constructor
    · intro h
      simp [RequestQueue.put, h]
    · intro h
      have hnot : ¬ q.queue.length ≥ q.max_size := by omega
      simp [RequestQueue.put, hnot]
  · refine ⟨rfl, rfl, rfl⟩

/-- Witness for C5's quantified part on a full capacity-0 queue and a
one-slot queue. -/
theorem queue_put_sheds_load_witness :
    (RequestQueue.put (RequestQueue.init Nat 0) 9 2 1).1 = Except.error () ∧
    (RequestQueue.put (RequestQueue.init Nat 1) 9 2 1).1 = Except.ok () := by
  constructor
  · exact ((queue_put_sheds_load.1 (RequestQueue.init Nat 0) 9 2 1).1 (by decide)).1
  · exact ((queue_put_sheds_load.1 (RequestQueue.init Nat 1) 9 2 1).2 (by decide)).1

/-- Every `put` within capacity succeeds and appends its triple at the tail. -/
theorem putAll_within_capacity {α : Type} (xs : List (Int × ℚ × α))
    (q : RequestQueue α) (h : q.queue.length + xs.length ≤ q.max_size) :
    (RequestQueue.putAll q xs).1 = xs.map (fun _ => Except.ok ()) ∧
    (RequestQueue.putAll q xs).2 = { q with queue := q.queue ++ xs } := by
  induction xs generalizing q with
  | nil => simp [RequestQueue.putAll]
  | cons hd tl ih =>
      obtain ⟨p, t, it⟩ := hd
      simp only [List.length_cons] at h
      have hnot : ¬ q.queue.length ≥ q.max_size := by omega
      have hrec := ih { q with queue := q.queue ++ [(p, t, it)] } (by simp; omega)
      simp only [RequestQueue.putAll, RequestQueue.put, if_neg hnot]
      simp [hrec.1, hrec.2]

/-- Draining the queue by repeated `get` yields the third components of the
stored triples in order. -/
theorem drain_eq_items {α : Type} (q : RequestQueue α) :
    RequestQueue.drain q = q.queue.map (fun t => t.2.2) := by
  obtain ⟨ms, l, d⟩ := q
  induction l with
  | nil => rw [RequestQueue.drain]; simp [RequestQueue.get]
  | cons hd tl ih =>
      obtain ⟨p, t, it⟩ := hd
      rw [RequestQueue.drain]
      simp only [RequestQueue.get]
      simpa using ih

/-- C6: after any sequence of accepted `put` calls, repeated `get` returns
the items in arrival order; the `priority` argument has no effect on the
dequeue order. -/
theorem queue_fifo_ignores_priority {α : Type} (xs : List (Int × ℚ × α)) (n : Nat)
    (h : xs.length ≤ n) :
    (RequestQueue.putAll (RequestQueue.init α n) xs).1 =
      xs.map (fun _ => Except.ok ()) ∧
    RequestQueue.drain (RequestQueue.putAll (RequestQueue.init α n) xs).2 =
      xs.map (fun t => t.2.2) := by
  have hall := putAll_within_capacity xs (RequestQueue.init α n)
    (by simpa [RequestQueue.init] using h)
  refine ⟨hall.1, ?_⟩
  rw [hall.2, drain_eq_items]
  simp [RequestQueue.init]

/-- Witness for C6: three items with decreasing priorities still drain in
arrival order 10, 20, 30. -/
theorem queue_fifo_ignores_priority_witness :
    (RequestQueue.putAll (RequestQueue.init Nat 5)
        [(9, 0, 10), (5, 1, 20), (1, 2, 30)]).1 =
      [Except.ok (), Except.ok (), Except.ok ()] ∧
    RequestQueue.drain (RequestQueue.putAll (RequestQueue.init Nat 5)
        [(9, 0, 10), (5, 1, 20), (1, 2, 30)]).2 = [10, 20, 30] := by
  have h := queue_fifo_ignores_priority (α := Nat)
    [(9, 0, 10), (5, 1, 20), (1, 2, 30)] 5 (by decide)
  exact ⟨h.1, by simpa using h.2⟩

/-- Looking up the key just written by `setKey` returns the written value. -/
theorem lookup_setKey_self {β : Type} (k : String) (v : β) (l : List (String × β)) :
    (setKey k v l).lookup k = some v := by
  induction l with
  | nil => simp [setKey, List.lookup]
  | cons hd tl ih =>
      obtain ⟨k', v'⟩ := hd
      by_cases h : k' = k
      · simp [setKey, h, List.lookup]
      · have h1 : (k' == k) = false := by simp [h]
        have h2 : (k == k') = false := by simp [Ne.symm h]
        simp [setKey, h1, List.lookup, h2, ih]

/-- Unfolding of `is_allowed` into its two outcomes (pure computation). -/
theorem is_allowed_eq (now : ℚ) (key : String) (rl : RateLimiter) :
    RateLimiter.is_allowed now key rl =
      (if min rl.burst_size ((RateLimiter.get_bucket now key rl).1.tokens +
            (now - (RateLimiter.get_bucket now key rl).1.last_refill) *
              rl.rate_per_second) ≥ 1 then
        (true, { (RateLimiter.get_bucket now key rl).2 with
          buckets := setKey key
            { tokens := min rl.burst_size ((RateLimiter.get_bucket now key rl).1.tokens +
                (now - (RateLimiter.get_bucket now key rl).1.last_refill) *
                  rl.rate_per_second) - 1,
              last_refill := now,
              requests := (RateLimiter.get_bucket now key rl).1.requests + 1,
              last_request := now }
            (RateLimiter.get_bucket now key rl).2.buckets })
      else
        (false, { (RateLimiter.get_bucket now key rl).2 with
          buckets := setKey key
            { tokens := min rl.burst_size ((RateLimiter.get_bucket now key rl).1.tokens +
                (now - (RateLimiter.get_bucket now key rl).1.last_refill) *
                  rl.rate_per_second),
              last_refill := now,
              requests := (RateLimiter.get_bucket now key rl).1.requests + 1,
              last_request := now }
            (RateLimiter.get_bucket now key rl).2.buckets })) := rfl

/-- C3: every `is_allowed` call locates-or-creates the client's bucket,
refills it to `min(capacity, tokens + elapsed * rate)` with `last_refill`
stamped to `now` regardless of outcome, and then consumes exactly one token
and answers `true` iff the refilled balance is at least 1; a denial leaves
the refilled balance untouched. -/
theorem is_allowed_token_accounting (now : ℚ) (key : String) (rl : RateLimiter) :
    ∃ b' : Bucket,
      (RateLimiter.is_allowed now key rl).2.buckets.lookup key = some b' ∧
      b'.last_refill = now ∧
      b'.last_request = now ∧
      b'.requests = (RateLimiter.get_bucket now key rl).1.requests + 1 ∧
      ((RateLimiter.is_allowed now key rl).1 = true ↔
        min rl.burst_size ((RateLimiter.get_bucket now key rl).1.tokens +
          (now - (RateLimiter.get_bucket now key rl).1.last_refill) *
            rl.rate_per_second) ≥ 1) ∧
      b'.tokens =
        (if min rl.burst_size ((RateLimiter.get_bucket now key rl).1.tokens +
              (now - (RateLimiter.get_bucket now key rl).1.last_refill) *
                rl.rate_per_second) ≥ 1 then
          min rl.burst_size ((RateLimiter.get_bucket now key rl).1.tokens +
            (now - (RateLimiter.get_bucket now key rl).1.last_refill) *
              rl.rate_per_second) - 1
        else
          min rl.burst_size ((RateLimiter.get_bucket now key rl).1.tokens +
            (now - (RateLimiter.get_bucket now key rl).1.last_refill) *
              rl.rate_per_second)) := by
  rw [is_allowed_eq]
  by_cases hc : min rl.burst_size ((RateLimiter.get_bucket now key rl).1.tokens +
      (now - (RateLimiter.get_bucket now key rl).1.last_refill) *
        rl.rate_per_second) ≥ 1
  · rw [if_pos hc]
    exact ⟨_, lookup_setKey_self key _ _, rfl, rfl, rfl, by simp [hc], by simp [hc]⟩
  · rw [if_neg hc]
    exact ⟨_, lookup_setKey_self key _ _, rfl, rfl, rfl, by simp [hc], by simp [hc]⟩

/-- C10: `get_stats` for a key with no bucket answers the default snapshot
(full burst capacity, zero requests) and leaves the limiter — in particular
its bucket map — untouched. -/
theorem get_stats_unknown_key (now : ℚ) (key : String) (rl : RateLimiter)
    (h : rl.buckets.lookup key = none) :
    RateLimiter.get_stats now key rl =
      ({ tokens := rl.burst_size, requests := 0, rate_limit := rl.requests_per_minute,
         burst_size := rl.burst_size, last_request := none }, rl) := by
  simp [RateLimiter.get_stats, h]

/-- Witness for C10 on a freshly constructed limiter (60 rpm, default burst). -/
theorem get_stats_unknown_key_witness :
    RateLimiter.get_stats 10 "client" (RateLimiter.init 60 none 0) =
      ({ tokens := 60, requests := 0, rate_limit := 60,
         burst_size := 60, last_request := none }, RateLimiter.init 60 none 0) := by
  have h := get_stats_unknown_key 10 "client" (RateLimiter.init 60 none 0) rfl
  rw [h]
  norm_num [RateLimiter.init]

/-- C7: a check whose condition holds fires — returning an alert and stamping
`last_fired := now` — exactly when `now - last_fired ≥ cooldown_seconds`; a
check inside the cooldown window, or whose condition is false, returns no
alert and leaves the rule untouched, so a rule never fires twice within one
cooldown window. -/
theorem alertRule_cooldown_gate (now value : ℚ) (labels : List (String × String))
    (r : AlertRule) :
    (r.condition value = true →
      (((AlertRule.check now value labels r).1.isSome = true ∧
        (AlertRule.check now value labels r).2.last_fired = now) ↔
        now - r.last_fired ≥ r.cooldown_seconds) ∧
      (now - r.last_fired < r.cooldown_seconds →
        (AlertRule.check now value labels r).1 = none ∧
        (AlertRule.check now value labels r).2 = r)) ∧
    (r.condition value = false →
      (AlertRule.check now value labels r).1 = none ∧
      (AlertRule.check now value labels r).2 = r) := by
  constructor
  · intro hcond
    by_cases hcool : now - r.last_fired < r.cooldown_seconds
    · constructor
      · simp only [AlertRule.check, hcond, if_pos hcool]
        constructor
        · rintro ⟨h1, _⟩
          simp at h1
        · intro hge
          exact absurd hge (not_le.mpr hcool)
      · intro _
        simp [AlertRule.check, hcond, if_pos hcool]
    · constructor
      · simp only [AlertRule.check, hcond, if_neg hcool]
        simp [le_of_not_lt hcool]
      · intro hlt
        exact absurd hlt hcool
  · intro hcond
    simp [AlertRule.check, hcond]

/-- Witness for C7: a rule with threshold 95 and cooldown 300 last fired at
time 0; at time 100 a satisfying value 96 is suppressed, at time 301 it
fires. -/
theorem alertRule_cooldown_gate_witness :
    (AlertRule.check 100 96 []
      { name := "gpu_memory_critical", condition := fun x => decide (x > 95),
        severity := AlertSeverity.critical, threshold := 95,
        cooldown_seconds := 300, last_fired := 0 }).1 = none ∧
    (AlertRule.check 301 96 []
      { name := "gpu_memory_critical", condition := fun x => decide (x > 95),
        severity := AlertSeverity.critical, threshold := 95,
        cooldown_seconds := 300, last_fired := 0 }).1.isSome = true := by
  constructor
  · exact (((alertRule_cooldown_gate 100 96 []
      { name := "gpu_memory_critical", condition := fun x => decide (x > 95),
        severity := AlertSeverity.critical, threshold := 95,
        cooldown_seconds := 300, last_fired := 0 }).1 (by norm_num)).2 (by norm_num)).1
  · exact ((((alertRule_cooldown_gate 301 96 []
      { name := "gpu_memory_critical", condition := fun x => decide (x > 95),
        severity := AlertSeverity.critical, threshold := 95,
        cooldown_seconds := 300, last_fired := 0 }).1 (by norm_num)).1).mpr (by norm_num)).1

/-- C8: resetting a registered breaker forces it to Closed with
`failure_count` and `success_count` zeroed; resetting an unknown name yields
the error result and leaves the registry untouched. -/
theorem resetBreaker_spec (name : String) (mgr : ResilienceManager) :
    (∀ cb, mgr.circuit_breakers.lookup name = some cb →
      (reset_circuit_breaker name mgr).1 =
        Except.ok ("Circuit breaker " ++ name ++ " reset successfully") ∧
      (reset_circuit_breaker name mgr).2.circuit_breakers.lookup name =
        some { cb with state := CircuitState.closed, failure_count := 0,
                       success_count := 0 }) ∧
    (mgr.circuit_breakers.lookup name = none →
      (reset_circuit_breaker name mgr).1 =
        Except.error ("Circuit breaker " ++ name ++ " not found") ∧
      (reset_circuit_breaker name mgr).2 = mgr) := by
  constructor
  · intro cb hcb
    constructor
    · simp [reset_circuit_breaker, hcb]
    · simp only [reset_circuit_breaker, hcb]
      exact lookup_setKey_self name _ _
  · intro hnone
    simp [reset_circuit_breaker, hnone]

/-- Witness for C8: a registry with one open breaker named "vllm" is reset to
Closed with zeroed counters; the name "other" is reported missing. -/
theorem resetBreaker_spec_witness :
    (reset_circuit_breaker "vllm"
      ⟨[("vllm", ⟨CircuitState.opened, 5, 1, 40, 9⟩)]⟩).2.circuit_breakers.lookup "vllm" =
      some ⟨CircuitState.closed, 0, 0, 40, 9⟩ ∧
    (reset_circuit_breaker "other"
      ⟨[("vllm", ⟨CircuitState.opened, 5, 1, 40, 9⟩)]⟩).2 =
      ⟨[("vllm", ⟨CircuitState.opened, 5, 1, 40, 9⟩)]⟩ := by
  constructor
  · exact ((resetBreaker_spec "vllm"
      ⟨[("vllm", ⟨CircuitState.opened, 5, 1, 40, 9⟩)]⟩).1
        ⟨CircuitState.opened, 5, 1, 40, 9⟩ rfl).2
  · exact ((resetBreaker_spec "other"
      ⟨[("vllm", ⟨CircuitState.opened, 5, 1, 40, 9⟩)]⟩).2 rfl).2

/-- A successful lookup pins down a member of the association list. -/
theorem lookup_mem {β : Type} (k : String) (v : β) (l : List (String × β))
    (h : l.lookup k = some v) : (k, v) ∈ l := by
  induction l with
  | nil => simp [List.lookup] at h
  | cons hd tl ih =>
      obtain ⟨k', v'⟩ := hd
      by_cases hk : k = k'
      · subst hk
        simp [List.lookup] at h
        simp [h]
      · have hb : (k == k') = false := by simp [hk]
        simp only [List.lookup, hb] at h
        exact List.mem_cons_of_mem _ (ih h)

/-- Every member of `setKey k v l` is the written pair or an original
member. -/
theorem mem_setKey {β : Type} (k : String) (v : β) (l : List (String × β))
    (kb : String × β) (h : kb ∈ setKey k v l) : kb = (k, v) ∨ kb ∈ l := by
  induction l with
  | nil => simp [setKey] at h; simp [h]
  | cons hd tl ih =>
      obtain ⟨k', v'⟩ := hd
      simp only [setKey] at h
      by_cases hk : (k' == k) = true
      · rw [if_pos hk] at h
        rcases List.mem_cons.mp h with h1 | h1
        · exact Or.inl h1
        · exact Or.inr (List.mem_cons_of_mem _ h1)
      · rw [if_neg hk] at h
        rcases List.mem_cons.mp h with h1 | h1
        · exact Or.inr (by simp [h1])
        · rcases ih h1 with h2 | h2
          · exact Or.inl h2
          · exact Or.inr (List.mem_cons_of_mem _ h2)

/-- Externally triggered limiter operations with their wall-clock times
(`is_allowed` on a request, `get_stats` on the stats endpoint — both mutate
buckets in the source). -/
inductive LimiterOp
  | isAllowed (now : ℚ) (key : String)
  | getStats (now : ℚ) (key : String)

/-- The wall-clock time at which an operation runs. -/
def LimiterOp.time : LimiterOp → ℚ
  | LimiterOp.isAllowed t _ => t
  | LimiterOp.getStats t _ => t

/-- State effect of one limiter operation. -/
def runOp : LimiterOp → RateLimiter → RateLimiter
  | LimiterOp.isAllowed t k, rl => (RateLimiter.is_allowed t k rl).2
  | LimiterOp.getStats t k, rl => (RateLimiter.get_stats t k rl).2

/-- State effect of a sequence of limiter operations. -/
def runOps : List LimiterOp → RateLimiter → RateLimiter
  | [], rl => rl
  | op :: rest, rl => runOps rest (runOp op rl)

/-- The operation times are nondecreasing, starting no earlier than `t`
(`time.time()` is nondecreasing across calls). -/
def chronological (t : ℚ) : List LimiterOp → Bool
  | [] => true
  | op :: rest => decide (t ≤ LimiterOp.time op) && chronological (LimiterOp.time op) rest

/-- The bucket invariant at wall-clock time `t`: every stored balance lies in
`[0, burst_size]` and no refill stamp is in the future. -/
def BucketsInv (t : ℚ) (rl : RateLimiter) : Prop :=
  ∀ kb ∈ rl.buckets, 0 ≤ kb.2.tokens ∧ kb.2.tokens ≤ rl.burst_size ∧
    kb.2.last_refill ≤ t

/-- The bucket invariant survives moving the clock forward. -/
theorem bucketsInv_mono {t t' : ℚ} (h : t ≤ t') (rl : RateLimiter)
    (hinv : BucketsInv t rl) : BucketsInv t' rl := by
  intro kb hkb
  obtain ⟨h1, h2, h3⟩ := hinv kb hkb
  exact ⟨h1, h2, le_trans h3 h⟩

/-- A refill at a time not before the bucket's stamp keeps the balance in
`[0, burst]` and stamps `last_refill := now`. -/
theorem refill_bucket_bounds (burst rate now : ℚ) (b : Bucket) (hb : 0 ≤ burst)
    (hr : 0 ≤ rate) (h0 : 0 ≤ b.tokens) (hlr : b.last_refill ≤ now) :
    0 ≤ (RateLimiter.refill_bucket burst rate now b).tokens ∧
    (RateLimiter.refill_bucket burst rate now b).tokens ≤ burst ∧
    (RateLimiter.refill_bucket burst rate now b).last_refill = now := by
  refine ⟨?_, ?_, rfl⟩
  · exact le_min hb (add_nonneg h0 (mul_nonneg (by linarith) hr))
  · exact min_le_left _ _

/-- `_get_bucket` preserves the limiter parameters and the bucket invariant,
and the located-or-created bucket itself satisfies the invariant at `now`. -/
theorem get_bucket_inv (now : ℚ) (key : String) (rl : RateLimiter) (t : ℚ)
    (hb : 0 ≤ rl.burst_size) (ht : t ≤ now) (hinv : BucketsInv t rl) :
    (RateLimiter.get_bucket now key rl).2.burst_size = rl.burst_size ∧
    (RateLimiter.get_bucket now key rl).2.rate_per_second = rl.rate_per_second ∧
    BucketsInv now (RateLimiter.get_bucket now key rl).2 ∧
    0 ≤ (RateLimiter.get_bucket now key rl).1.tokens ∧
    (RateLimiter.get_bucket now key rl).1.tokens ≤ rl.burst_size ∧
    (RateLimiter.get_bucket now key rl).1.last_refill ≤ now := by
  simp only [RateLimiter.get_bucket]
  set rl1 := if now - rl.last_cleanup > rl.cleanup_interval then
      { RateLimiter.cleanup_old_buckets now rl with last_cleanup := now } else rl with h1
  have hb1 : rl1.burst_size = rl.burst_size := by
    rw [h1]; split <;> rfl
  have hr1 : rl1.rate_per_second = rl.rate_per_second := by
    rw [h1]; split <;> rfl
  have hinv1 : BucketsInv now rl1 := by
    rw [h1]; split
    · intro kb hkb
      have hmem : kb ∈ rl.buckets := by
        simp only [RateLimiter.cleanup_old_buckets] at hkb
        exact List.mem_of_mem_filter hkb
      obtain ⟨g1, g2, g3⟩ := hinv kb hmem
      exact ⟨g1, g2, le_trans g3 ht⟩
    · exact bucketsInv_mono ht rl hinv
  cases hlook : rl1.buckets.lookup key with
  | some b =>
      have hbmem := lookup_mem key b rl1.buckets hlook
      obtain ⟨g1, g2, g3⟩ := hinv1 (key, b) hbmem
      exact ⟨hb1, hr1, hinv1, g1, by rw [← hb1]; exact g2, g3⟩
  | none =>
      refine ⟨hb1, hr1, ?_, ?_, ?_, le_refl now⟩
      · intro kb hkb
        rcases mem_setKey _ _ _ kb hkb with h2 | h2
        · rw [h2]
          exact ⟨by rw [hb1]; exact hb, le_refl _, le_refl now⟩
        · exact hinv1 kb h2
      · show 0 ≤ rl1.burst_size
        rw [hb1]; exact hb
      · show rl1.burst_size ≤ rl.burst_size
        rw [hb1]

/-- One limiter operation preserves the parameters and the bucket invariant,
advanced to the operation's time. -/
theorem runOp_preserves (op : LimiterOp) (rl : RateLimiter) (t : ℚ)
    (hb : 0 ≤ rl.burst_size) (hr : 0 ≤ rl.rate_per_second)
    (ht : t ≤ LimiterOp.time op) (hinv : BucketsInv t rl) :
    (runOp op rl).burst_size = rl.burst_size ∧
    (runOp op rl).rate_per_second = rl.rate_per_second ∧
    BucketsInv (LimiterOp.time op) (runOp op rl) := by
  cases op with
  | isAllowed now key =>
      simp only [runOp, LimiterOp.time] at ht ⊢
      obtain ⟨hb2, hr2, hinv2, hp0, hp1, hp2⟩ := get_bucket_inv now key rl t hb ht hinv
      rw [is_allowed_eq]
      set refilled := min rl.burst_size ((RateLimiter.get_bucket now key rl).1.tokens +
        (now - (RateLimiter.get_bucket now key rl).1.last_refill) *
          rl.rate_per_second) with hrf
      have hrll : 0 ≤ refilled :=
        le_min hb (add_nonneg hp0 (mul_nonneg (by linarith) hr))
      have hrlu : refilled ≤ rl.burst_size := min_le_left _ _
      by_cases hc : refilled ≥ 1
      · rw [if_pos hc]
        refine ⟨hb2, hr2, ?_⟩
        intro kb hkb
        rcases mem_setKey _ _ _ kb hkb with h2 | h2
        · rw [h2]
          refine ⟨by simp; linarith, ?_, le_refl now⟩
          show refilled - 1 ≤ _
          rw [show ({ (RateLimiter.get_bucket now key rl).2 with
            buckets := setKey key
              { tokens := refilled - 1, last_refill := now,
                requests := (RateLimiter.get_bucket now key rl).1.requests + 1,
                last_request := now }
              (RateLimiter.get_bucket now key rl).2.buckets } : RateLimiter).burst_size =
            (RateLimiter.get_bucket now key rl).2.burst_size from rfl, hb2]
          linarith
        · obtain ⟨g1, g2, g3⟩ := hinv2 kb h2
          exact ⟨g1, g2, g3⟩
      · rw [if_neg hc]
        refine ⟨hb2, hr2, ?_⟩
        intro kb hkb
        rcases mem_setKey _ _ _ kb hkb with h2 | h2
        · rw [h2]
          refine ⟨hrll, ?_, le_refl now⟩
          show refilled ≤ _
          rw [show ({ (RateLimiter.get_bucket now key rl).2 with
            buckets := setKey key
              { tokens := refilled, last_refill := now,
                requests := (RateLimiter.get_bucket now key rl).1.requests + 1,
                last_request := now }
              (RateLimiter.get_bucket now key rl).2.buckets } : RateLimiter).burst_size =
            (RateLimiter.get_bucket now key rl).2.burst_size from rfl, hb2]
          exact hrlu
        · obtain ⟨g1, g2, g3⟩ := hinv2 kb h2
          exact ⟨g1, g2, g3⟩
  | getStats now key =>
      simp only [runOp, LimiterOp.time] at ht ⊢
      cases hlook : rl.buckets.lookup key with
      | none =>
          simp only [RateLimiter.get_stats, hlook]
          exact ⟨by trivial, by trivial, bucketsInv_mono ht rl hinv⟩
      | some b =>
          simp only [RateLimiter.get_stats, hlook]
          refine ⟨by trivial, by trivial, ?_⟩
          intro kb hkb
          rcases mem_setKey _ _ _ kb hkb with h2 | h2
          · have hbmem := lookup_mem key b rl.buckets hlook
            obtain ⟨g1, g2, g3⟩ := hinv (key, b) hbmem
            obtain ⟨r0, r1, r2⟩ := refill_bucket_bounds rl.burst_size rl.rate_per_second
              now b hb hr g1 (le_trans g3 ht)
            rw [h2]
            exact ⟨r0, r1, le_of_eq r2⟩
          · obtain ⟨g1, g2, g3⟩ := hinv kb h2
            exact ⟨g1, g2, le_trans g3 ht⟩

/-- A chronological sequence of operations preserves the capacity parameter
and the bucket invariant (at some final clock value). -/
theorem runOps_preserves (ops : List LimiterOp) (rl : RateLimiter) (t : ℚ)
    (hb : 0 ≤ rl.burst_size) (hr : 0 ≤ rl.rate_per_second)
    (hch : chronological t ops = true) (hinv : BucketsInv t rl) :
    (runOps ops rl).burst_size = rl.burst_size ∧
    ∃ t', BucketsInv t' (runOps ops rl) := by
  induction ops generalizing rl t with
  | nil => exact ⟨rfl, t, hinv⟩
  | cons op rest ih =>
      simp only [chronological, Bool.and_eq_true, decide_eq_true_eq] at hch
      obtain ⟨ht, hch2⟩ := hch
      obtain ⟨hb2, hr2, hinv2⟩ := runOp_preserves op rl t hb hr ht hinv
      have hrec := ih (runOp op rl) (LimiterOp.time op)
        (by rw [hb2]; exact hb) (by rw [hr2]; exact hr) hch2 hinv2
      constructor
      · show (runOps rest (runOp op rl)).burst_size = rl.burst_size
        rw [hrec.1, hb2]
      · exact hrec.2

/-- C4: starting from a freshly constructed limiter (as `AuthMiddleware`
builds it, with the default burst), any chronological sequence of
`is_allowed` / `get_stats` operations keeps every stored bucket balance
within `[0, burst_size]`. -/
theorem limiter_token_bounds (rpm : Nat) (t0 : ℚ) (ops : List LimiterOp)
    (hch : chronological t0 ops = true) :
    ∀ kb ∈ (runOps ops (RateLimiter.init rpm none t0)).buckets,
      0 ≤ kb.2.tokens ∧
      kb.2.tokens ≤ (RateLimiter.init rpm none t0).burst_size := by
  have hb : 0 ≤ (RateLimiter.init rpm none t0).burst_size := by
    show 0 ≤ min ((rpm : ℚ)) 100
    exact le_min (by positivity) (by norm_num)
  have hr : 0 ≤ (RateLimiter.init rpm none t0).rate_per_second := by
    show 0 ≤ (rpm : ℚ) / 60
    positivity
  have hinv : BucketsInv t0 (RateLimiter.init rpm none t0) := by
    intro kb hkb
    simp [RateLimiter.init] at hkb
  obtain ⟨hpres, t', hinv'⟩ := runOps_preserves ops _ t0 hb hr hch hinv
  intro kb hkb
  obtain ⟨g1, g2, _⟩ := hinv' kb hkb
  exact ⟨g1, by rw [← hpres]; exact g2⟩

/-- Witness for C4: two allowed requests for client "c" at times 1 and 2 on a
60 rpm limiter leave its bucket at 59 tokens, inside the bounds. -/
theorem limiter_token_bounds_witness :
    0 ≤ (Bucket.mk 59 2 2 2).tokens ∧
    (Bucket.mk 59 2 2 2).tokens ≤ (RateLimiter.init 60 none 0).burst_size := by
  have hmem : ("c", Bucket.mk 59 2 2 2) ∈
      (runOps [LimiterOp.isAllowed 1 "c", LimiterOp.isAllowed 2 "c"]
        (RateLimiter.init 60 none 0)).buckets := by
    norm_num [runOps, runOp, is_allowed_eq, RateLimiter.get_bucket,
      RateLimiter.refill_bucket, RateLimiter.cleanup_old_buckets, RateLimiter.init,
      setKey, List.lookup, min_def]
  exact limiter_token_bounds 60 0
    [LimiterOp.isAllowed 1 "c", LimiterOp.isAllowed 2 "c"] (by decide) _ hmem
